import Mathlib

/-!
Verification of the zookeeper watcher of goext
(src/database/registry/zookeeper/watch.go, package gxzookeeper).

The Go code is shallowly embedded: every external call made by the watcher
(GetChildren, GetChildrenW, ExistW, Get, DecodeService, the filter
predicate) is an input supplied through an environment record, every
channel interaction is an explicit step in a trace, and every goroutine
body becomes a Lean function from its trace of inputs to the observable
actions it performs (events sent on w.events, goroutines spawned, handler
calls). Go select statements with several ready cases are nondeterministic;
that choice is an explicit boolean or trace input.
-/

namespace Gxzookeeper

/-- Zookeeper notification types delivered on a watch channel
(the zk.Event types the source matches on). -/
inductive ZkEventType
  | nodeCreated
  | nodeDeleted
  | nodeDataChanged
  | nodeChildrenChanged
  | notWatching
  | session
  deriving DecidableEq

/-- Connection states reported by the zk client (watch.go:398-399 tests
StateConnected and StateHasSession). -/
inductive ZkConnState
  | disconnected
  | connecting
  | connected
  | hasSession
  | expired
  | authFailed
  deriving DecidableEq

/-- Decoded service record (gxregistry.Service); attr is the part the
filter predicate inspects, node stands for the rest of the record. -/
structure Service where
  attr : String
  node : String
  deriving DecidableEq

/-- Event kinds sent to the selector (registry.ServiceURLAdd and
registry.ServiceURLDel in the source). -/
inductive ServiceEventType
  | serviceURLAdd
  | serviceURLDel
  deriving DecidableEq

/-- The gxregistry.EventResult payload of a relay event. -/
structure EventResult where
  action : ServiceEventType
  service : Service
  deriving DecidableEq

/-- The event struct of watch.go:44-47: a result pointer and an error
(none models Go nil). -/
structure event where
  res : Option EventResult
  err : Option String
  deriving DecidableEq

/-- The Added event as built at watch.go:206. -/
def mkAddEvent (svc : Service) : event :=
  { res := some { action := ServiceEventType.serviceURLAdd, service := svc }, err := none }

/-- The Removed event as built at watch.go:213. -/
def mkDelEvent (svc : Service) : event :=
  { res := some { action := ServiceEventType.serviceURLDel, service := svc }, err := none }

/-- The error Notify returns once the done channel is closed (watch.go:381). -/
def watcherStoppedError : String := "watcher stopped"

/-- One iteration of watchServiceNode consumes one of these inputs: the
ExistW call fails, the select receives a zookeeper notification, or the
select receives the stop signal from the done channel. -/
inductive NodeStep
  | existErr
  | recv (t : ZkEventType)
  | stop
  deriving DecidableEq

/-- Shallow embedding of watchServiceNode (watch.go:77-112) as a function of
its input trace: some b when the loop returns b within the trace, none when
the trace ends with the loop still blocked or re-arming. ExistW failure and
the stop signal return false; a nodeDeleted notification returns true; every
other notification type (nodeDataChanged, nodeCreated, notWatching,
nodeChildrenChanged, session) falls through the switch and re-arms. -/
def watchServiceNode : List NodeStep → Option Bool
  | [] => none
  | NodeStep.existErr :: _ => some false
  | NodeStep.stop :: _ => some false
  | NodeStep.recv ZkEventType.nodeDeleted :: _ => some true
  | NodeStep.recv _ :: rest => watchServiceNode rest

/-- Steps at which watchServiceNode stops looping (the return points of the
source: ExistW error, stop signal, nodeDeleted). -/
def deciding : NodeStep → Bool
  | NodeStep.existErr => true
  | NodeStep.stop => true
  | NodeStep.recv ZkEventType.nodeDeleted => true
  | NodeStep.recv _ => false

/-- The goroutine spawned at watch.go:208-216: it runs watchServiceNode on
the node and sends a Removed event on w.events exactly when that call
returns true. -/
def nodeWatchTask (svc : Service) (t : List NodeStep) : List event :=
  if watchServiceNode t = some true then [mkDelEvent svc] else []

/-- The helper contains of watch.go:114-122. -/
def contains : List String → String → Bool
  | [], _ => false
  | a :: s, e => if a == e then true else contains s e

/-- path.Join as used on zookeeper paths (watch.go:154, 188, 361). -/
def pathJoin (a b : String) : String := a ++ "/" ++ b

/-- Environment of handleZkNodeEvent: the result of the GetChildren call
(none models an error return), the Get call per node path, DecodeService,
and the configured filter predicate w.opts.Filter. -/
structure NodeEnv where
  childrenRes : Option (List String)
  get : String → Option (List Nat)
  decode : List Nat → Option Service
  filter : String → Bool

/-- Observable actions of handleZkNodeEvent, in program order: a blocking
send on w.events, or the spawn of a watchServiceNode goroutine for a node. -/
inductive Action
  | send (e : event)
  | spawnNodeWatch (node : String) (svc : Service)
  deriving DecidableEq

/-- The per-child body of the loop at watch.go:183-217: children already in
the known set are skipped; Get, DecodeService and the filter each skip the
child on failure; otherwise the Added event is sent on w.events and then the
node-watch goroutine is spawned. -/
def handleChild (env : NodeEnv) (zkPath : String) (children : List String) (n : String) :
    List Action :=
  if contains children n then []
  else
    match env.get (pathJoin zkPath n) with
    | none => []
    | some zkData =>
      match env.decode zkData with
      | none => []
      | some service =>
        if !env.filter service.attr then []
        else
          [Action.send (mkAddEvent service),
           Action.spawnNodeWatch (pathJoin zkPath n) service]

/-- Shallow embedding of handleZkNodeEvent (watch.go:164-218): on a
GetChildren error it returns at once with no action; otherwise it processes
the returned children in order. -/
def handleZkNodeEvent (env : NodeEnv) (zkPath : String) (children : List String) :
    List Action :=
  match env.childrenRes with
  | none => []
  | some newChildren => newChildren.flatMap (handleChild env zkPath children)

/-- Ordering property of an action list: every spawn of a node watch is
preceded by the send of the Added event for the same service. -/
def addBeforeSpawn (l : List Action) : Prop :=
  ∀ (i : Nat) (n : String) (svc : Service),
    l[i]? = some (Action.spawnNodeWatch n svc) →
      ∃ j : Nat, j < i ∧ l[j]? = some (Action.send (mkAddEvent svc))

/-- Result of one Notify call (watch.go:378-386): blocked when neither
select case is ready, stopped for the done case, delivered for the events
case. -/
inductive NotifyOutcome
  | blocked
  | stopped
  | delivered (e : event)
  deriving DecidableEq

/-- Shallow embedding of Notify. The select is ready on its done case iff
the done channel is closed and on its events case iff the buffered channel
holds an event; when both are ready Go picks uniformly at random, modeled by
the explicit choice pickDone. -/
def Notify (doneClosed : Bool) (queue : List event) (pickDone : Bool) : NotifyOutcome :=
  match doneClosed, queue with
  | false, [] => NotifyOutcome.blocked
  | true, [] => NotifyOutcome.stopped
  | false, e :: _ => NotifyOutcome.delivered e
  | true, e :: _ => if pickDone then NotifyOutcome.stopped else NotifyOutcome.delivered e

/-- The pair (EventResult pointer, error) Notify returns to the caller:
none while it blocks. -/
def notifyReturn : NotifyOutcome → Option (Option EventResult × Option String)
  | NotifyOutcome.blocked => none
  | NotifyOutcome.stopped => some (none, some watcherStoppedError)
  | NotifyOutcome.delivered e => some (e.res, e.err)

/-- Lifecycle-relevant state of a Watcher and its surroundings: whether
w.done is closed, whether w.reg.done is closed, and the zk connection
state ZkConn().State() reports. -/
structure WatcherLife where
  doneClosed : Bool
  regDoneClosed : Bool
  zkState : ZkConnState
  deriving DecidableEq

/-- IsClosed (watch.go:416-424): the select with a default branch takes the
done case exactly when the channel is closed. -/
def IsClosed (w : WatcherLife) : Bool := w.doneClosed

/-- Close (watch.go:407-413): closes w.done unless already closed (then
waits on the WaitGroup, which changes no state modeled here). -/
def Close (w : WatcherLife) : WatcherLife :=
  if IsClosed w then w else { w with doneClosed := true }

/-- Valid (watch.go:388-405): false when IsClosed, false when the select
with default sees w.reg.done closed, else true iff the zk connection state
is StateConnected or StateHasSession. -/
def Valid (w : WatcherLife) : Bool :=
  if IsClosed w then false
  else if w.regDoneClosed then false
  else if w.zkState == ZkConnState.connected || w.zkState == ZkConnState.hasSession then true
  else false

/-- What the coordination layer reports as a live session: its done channel
is not closed and the connection state is connected or has a valid session. -/
def sessionStateValid (w : WatcherLife) : Bool :=
  !w.regDoneClosed && (w.zkState == ZkConnState.connected || w.zkState == ZkConnState.hasSession)

/-- One step of the environment after the watcher exists: the registry may
close its done channel (a closed channel never reopens) and the zk
connection state may change arbitrarily; nothing ever reopens w.done. -/
def envStep (w : WatcherLife) (regClosesNow : Bool) (st : ZkConnState) : WatcherLife :=
  { w with regDoneClosed := w.regDoneClosed || regClosesNow, zkState := st }

/-- Iterated environment steps. -/
def envRun (w : WatcherLife) : List (Bool × ZkConnState) → WatcherLife
  | [] => w
  | (b, st) :: rest => envRun (envStep w b st) rest

/-- The channels a blocking select of the source can be woken by. -/
inductive Chan
  | watcherDone
  | regDone
  | zkNodeEventCh
  | zkChildEventCh
  | backoffTimer
  | reconnectNotify
  deriving DecidableEq

/-- Channels of the select in watchServiceNode (watch.go:89-108): the ExistW
event channel and w.done. -/
def watchServiceNodeSelect : List Chan := [Chan.zkNodeEventCh, Chan.watcherDone]

/-- Channels of the select in the failure branch of watchDir
(watch.go:276-291): the backoff timer, w.done, and the registered
reconnect-notification channel. -/
def watchDirFailSelect : List Chan := [Chan.backoffTimer, Chan.watcherDone, Chan.reconnectNotify]

/-- Channels of the select in the success branch of watchDir
(watch.go:294-319): the GetChildrenW event channel and w.reg.done.
The watcher's own done channel is not among them. -/
def watchDirMainSelect : List Chan := [Chan.zkChildEventCh, Chan.regDone]

/-- MAX_TIMES of watch.go:28. -/
def MAX_TIMES : Nat := 15

/-- The backoff wait of watch.go:278, in units of
gxregistry.REGISTRY_CONN_DELAY seconds: failTimes times the unit delay. -/
def backoffDelay (failTimes delayUnit : Nat) : Nat := failTimes * delayUnit

/-- Mutable loop state of watchDir (watch.go:222-321): the consecutive
failure counter (initialized to 1 at watch.go:254) and the children slice
last assigned by GetChildrenW. -/
structure DirState where
  failTimes : Nat
  children : List String
  deriving DecidableEq

/-- Initial watchDir loop state: failTimes = 1 and a nil children slice. -/
def dirInitState : DirState := { failTimes := 1, children := [] }

/-- Which case the failure-branch select (watch.go:276-291) resolves to. -/
inductive FailBranch
  | timer
  | stop
  | notify
  deriving DecidableEq

/-- Which case the success-branch select (watch.go:294-319) resolves to: a
zookeeper event of a given type for a given path, or the registry done
channel. -/
inductive DirSel
  | zk (t : ZkEventType) (evPath : String)
  | regDone
  deriving DecidableEq

/-- One iteration of watchDir consumes one of these inputs: GetChildrenW
fails and the failure select then resolves to a branch, or GetChildrenW
succeeds with a children snapshot and the success select resolves. -/
inductive DirStep
  | fail (b : FailBranch)
  | ok (snapshot : List String) (sel : DirSel)
  deriving DecidableEq

/-- Calls the watchDir loop body makes into the event handlers, with the
children argument it passes. -/
inductive DirCall
  | handleNode (p : String) (children : List String)
  | handlePath (p : String) (children : List String)
  deriving DecidableEq

/-- Shallow embedding of one iteration of the watchDir loop
(watch.go:255-320) for a loop on zkPath of a watcher whose root makes
isRoot = (zkPath == w.opts.Root). Returns the new state, the handler calls
made during the iteration in order, and whether the loop returned.

Failure branch (watch.go:259-292): failTimes is incremented and capped at
MAX_TIMES; the timer case continues, the done case returns, the
reconnect-notification case calls handleZkNodeEvent with a nil children
argument and continues. None of the three resets failTimes to zero.

Success branch (watch.go:294-319): the snapshot returned by GetChildrenW is
assigned to children; a notification whose type is not
EventNodeChildrenChanged is ignored and the loop continues; on the registry
done channel the loop returns; on a children-changed notification the root
loop calls handleZkPathEvent with the current children, while a non-root
loop first truncates children to empty when failTimes == 0, then sets
failTimes to 0 and calls handleZkNodeEvent with the resulting children. -/
def watchDirStep (isRoot : Bool) (zkPath : String) (st : DirState) (s : DirStep) :
    DirState × List DirCall × Bool :=
  match s with
  | DirStep.fail b =>
    let ft :=
      let f := st.failTimes + 1
      if MAX_TIMES ≤ f then MAX_TIMES else f
    match b with
    | FailBranch.timer => ({ st with failTimes := ft }, [], false)
    | FailBranch.stop => ({ st with failTimes := ft }, [], true)
    | FailBranch.notify =>
      ({ st with failTimes := ft }, [DirCall.handleNode zkPath []], false)
  | DirStep.ok snapshot sel =>
    let st1 : DirState := { st with children := snapshot }
    match sel with
    | DirSel.regDone => (st1, [], true)
    | DirSel.zk t evPath =>
      if t != ZkEventType.nodeChildrenChanged then (st1, [], false)
      else if isRoot then (st1, [DirCall.handlePath evPath st1.children], false)
      else
        let newChildren := if st1.failTimes == 0 then [] else st1.children
        ({ failTimes := 0, children := newChildren },
         [DirCall.handleNode evPath newChildren], false)

/-- Runs the watchDir loop over a trace of iteration inputs, collecting the
handler calls; stops early when an iteration returns. -/
def watchDirRun (isRoot : Bool) (zkPath : String) :
    DirState → List DirStep → DirState × List DirCall
  | st, [] => (st, [])
  | st, s :: rest =>
    let r := watchDirStep isRoot zkPath st s
    if r.2.2 then (r.1, r.2.1)
    else
      let k := watchDirRun isRoot zkPath r.1 rest
      (k.1, r.2.1 ++ k.2)

/-- The registration prologue of watchDir (watch.go:233-242), performed
under w.Lock so the membership check and the append are one atomic step:
returns the new path set and whether this call proceeds into the watch loop
(true) or returns at once because the path was already watched (false). -/
def watchDirRegister (pathSet : List String) (zkPath : String) : List String × Bool :=
  let flag := contains pathSet zkPath
  if flag then (pathSet, false) else (pathSet ++ [zkPath], true)

/-- A serialized sequence of watchDir invocations (the lock serializes the
registration step): returns the final path set and the list of paths for
which a watch loop was actually started. Nothing in the source ever removes
an element from w.pathSet. -/
def runRegisters : List String → List String → List String × List String
  | pathSet, [] => (pathSet, [])
  | pathSet, q :: reqs =>
    let r := watchDirRegister pathSet q
    let rest := runRegisters r.1 reqs
    (rest.1, (if r.2 then [q] else []) ++ rest.2)

/-- Environment of watchService (watch.go:324-376): the result of the
GetChildren call on the root (none models an error), ServiceAttr
UnmarshalPath per child name, and the filter predicate. -/
structure ServiceEnv where
  rootChildrenRes : Option (List String)
  unmarshalPath : String → Option String
  filter : String → Bool

/-- Observable actions of watchService, in program order. -/
inductive SvcAction
  | deleteZkPath (p : String)
  | send (e : event)
  | spawnDir (p : String)
  deriving DecidableEq

/-- The per-child body of the loop at watch.go:350-369: skip a child whose
name fails UnmarshalPath or whose attributes fail the filter, else spawn the
watchDir goroutine for the joined service path. -/
def watchServiceChild (env : ServiceEnv) (root : String) (c : String) : List SvcAction :=
  match env.unmarshalPath c with
  | none => []
  | some attr =>
    if !env.filter attr then []
    else [SvcAction.spawnDir (pathJoin root c)]

/-- Shallow embedding of watchService (watch.go:324-376): it returns
at once on an empty root; otherwise it calls DeleteZkPath on the root,
reads the root children (on error the children slice is set to nil and no
event is sent - the send of an error event at watch.go:346 is commented out
in the source), runs the per-child body on each child, and finally spawns
the watchDir goroutine for the root. -/
def watchService (env : ServiceEnv) (root : String) : List SvcAction :=
  if root.length == 0 then []
  else
    SvcAction.deleteZkPath root ::
      ((match env.rootChildrenRes with
        | none => []
        | some cs => cs).flatMap (watchServiceChild env root)
      ++ [SvcAction.spawnDir root])

/-- Environment of handleZkPathEvent (watch.go:124-162). -/
structure PathEnv where
  childrenRes : Option (List String)
  unmarshalPath : String → Option String
  filter : String → Bool

/-- Shallow embedding of handleZkPathEvent: for every child of the root not
already in the known set that unmarshals and passes the filter, a watchDir
goroutine is spawned on the joined path; no event is sent on w.events. -/
def handleZkPathEvent (env : PathEnv) (zkRoot : String) (children : List String) :
    List String :=
  match env.childrenRes with
  | none => []
  | some newChildren => newChildren.flatMap fun n =>
      if contains children n then []
      else
        match env.unmarshalPath n with
        | none => []
        | some attr =>
          if !env.filter attr then [] else [pathJoin zkRoot n]

/-- A concrete service record used in concrete evaluations. -/
def svcX : Service := { attr := "group-a", node := "inst-1" }

/-! Helper lemmas. -/

/-- The membership check of the helper contains agrees with list
membership. -/
theorem contains_iff_mem (s : List String) (e : String) : contains s e = true ↔ e ∈ s := by
  induction s with
  | nil => simp [contains]
  | cons a s ih =>
    simp only [contains, List.mem_cons]
    by_cases h : a = e
    · subst h; simp
    · have hb : (a == e) = false := by simp [h]
      simp only [hb, Bool.false_eq_true, if_false, ih]
      constructor
      · exact Or.inr
      · rintro (rfl | hm)
        · exact absurd rfl h
        · exact hm

/-- The capped increment of watch.go:260-263 is the minimum with
MAX_TIMES. -/
theorem cap_eq_min (f : Nat) :
    (if MAX_TIMES ≤ f + 1 then MAX_TIMES else f + 1) = min (f + 1) MAX_TIMES := by
  simp only [MAX_TIMES, Nat.min_def]
  split <;> split <;> omega

/-- The failure branch of a watchDir iteration leaves the failure counter
at the capped increment, whichever select case resolves it. -/
theorem failStep_failTimes (p : String) (st : DirState) (b : FailBranch) :
    ((watchDirStep false p st (DirStep.fail b)).1).failTimes
      = min (st.failTimes + 1) MAX_TIMES := by
  cases b <;> simp [watchDirStep, cap_eq_min]

/-- Environment steps never touch the watcher done flag. -/
theorem envRun_doneClosed (l : List (Bool × ZkConnState)) :
    ∀ w : WatcherLife, (envRun w l).doneClosed = w.doneClosed := by
  induction l with
  | nil => intro w; rfl
  | cons p rest ih =>
    intro w
    cases p with
    | mk b st => simpa [envRun, envStep] using ih (envStep w b st)

/-- Close always leaves the done flag set. -/
theorem close_doneClosed (w : WatcherLife) : (Close w).doneClosed = true := by
  rcases w with ⟨d, r, s⟩
  cases d <;> rfl

/-- Valid is false whenever the done flag is set. -/
theorem valid_false_of_done (w : WatcherLife) (h : w.doneClosed = true) :
    Valid w = false := by
  simp [Valid, IsClosed, h]

/-! Claims. -/

/-- C1. Close (watch.go:407-413) is idempotent - it closes the done channel
only when IsClosed is still false - and then waits on the WaitGroup every
spawned loop registered with. But the stop channel w.done does not signal
every spawned loop: the select of watchServiceNode and the failure-branch
select of watchDir wait on w.done, while the success-branch select of
watchDir (watch.go:294-319) waits only on the GetChildrenW notification
channel and on w.reg.done, the registry's done channel. Closing w.done
therefore never wakes a directory loop blocked there, so that loop is not
signaled by the shared stop channel and the WaitGroup join in Close cannot
complete from the stop signal alone. -/
theorem close_idempotent_but_dir_loop_not_signaled :
    (∀ w : WatcherLife, Close (Close w) = Close w)
    ∧ (∀ w : WatcherLife, IsClosed (Close w) = true)
    ∧ Chan.watcherDone ∈ watchServiceNodeSelect
    ∧ Chan.watcherDone ∈ watchDirFailSelect
    ∧ Chan.watcherDone ∉ watchDirMainSelect
    ∧ Chan.regDone ∈ watchDirMainSelect := by
  refine ⟨?_, ?_, by decide, by decide, by decide, by decide⟩
  · intro w; rcases w with ⟨d, r, s⟩; cases d <;> rfl
  · intro w; exact close_doneClosed w

/-- C2. Evaluation of the non-root watchDir loop (watch.go:294-313) on two
concrete traces. First trace: one failed GetChildrenW call resolved by the
backoff timer, then a successful call with snapshot [inst-a] and a
children-changed notification; the loop calls handleZkNodeEvent with the
snapshot [inst-a], not with the empty set - the first successful
notification after a failure streak does NOT reset the known children,
because at that point failTimes is 2 and the reset guard at watch.go:306
requires failTimes == 0. Second trace: two successful notifications with no
failure in between; the second call passes the empty set - the reset fires
on the steady-state notification instead. This is the opposite of the
comment at watch.go:307, which says the children are cleared on a
successful reconnect or on the first connection. -/
theorem children_reset_inverted_eval :
    (watchDirRun false "/dubbo/com.foo" dirInitState
        [DirStep.fail FailBranch.timer,
         DirStep.ok ["inst-a"] (DirSel.zk ZkEventType.nodeChildrenChanged "/dubbo/com.foo")]).2
      = [DirCall.handleNode "/dubbo/com.foo" ["inst-a"]]
    ∧ (watchDirRun false "/dubbo/com.foo" dirInitState
        [DirStep.ok ["inst-a"] (DirSel.zk ZkEventType.nodeChildrenChanged "/dubbo/com.foo"),
         DirStep.ok ["inst-a", "inst-b"]
           (DirSel.zk ZkEventType.nodeChildrenChanged "/dubbo/com.foo")]).2
      = [DirCall.handleNode "/dubbo/com.foo" ["inst-a"],
         DirCall.handleNode "/dubbo/com.foo" []] := by
  exact ⟨by decide, by decide⟩

/-- C4 counterexample. A Watcher that has been stopped (done closed) but
still holds a queued Added event in the buffered relay: the select of
Notify has both cases ready, and when the scheduler picks the events case
Notify returns that data event, not the watcher-stopped error. So after
Stop a call to Next can return a data event. -/
theorem notify_after_stop_returns_data_event :
    Notify true [mkAddEvent svcX] false = NotifyOutcome.delivered (mkAddEvent svcX)
    ∧ Notify true [mkAddEvent svcX] false ≠ NotifyOutcome.stopped
    ∧ notifyReturn (Notify true [mkAddEvent svcX] false)
      = some (some { action := ServiceEventType.serviceURLAdd, service := svcX }, none) := by
  refine ⟨rfl, by decide, rfl⟩

/-- C4 (amended). Notify blocks exactly when the watcher is not stopped and
no event is queued; a stopped watcher with an empty relay gets the
distinguished watcher-stopped error; a running watcher returns the queued
event; a stopped watcher with queued events never blocks but
nondeterministically returns either the stopped error or the head data
event, depending on which ready select case Go picks. -/
theorem notify_blocking_and_stop_behavior :
    (∀ pick : Bool, Notify false [] pick = NotifyOutcome.blocked)
    ∧ (∀ pick : Bool, Notify true [] pick = NotifyOutcome.stopped)
    ∧ (∀ pick : Bool,
        notifyReturn (Notify true [] pick) = some (none, some watcherStoppedError))
    ∧ (∀ (e : event) (q : List event) (pick : Bool),
        Notify false (e :: q) pick = NotifyOutcome.delivered e)
    ∧ (∀ (e : event) (q : List event) (pick : Bool),
        Notify true (e :: q) pick ≠ NotifyOutcome.blocked)
    ∧ (∀ (e : event) (q : List event),
        Notify true (e :: q) true = NotifyOutcome.stopped
        ∧ Notify true (e :: q) false = NotifyOutcome.delivered e) := by
  refine ⟨fun _ => rfl, fun _ => rfl, fun _ => rfl, fun _ _ _ => rfl, ?_, fun _ _ => ⟨rfl, rfl⟩⟩
  intro e q pick h
  cases pick <;> simp [Notify] at h

/-- C5 counterexample. An EventNotWatching notification does not make
watchServiceNode return false: the switch at watch.go:93-104 only logs it
and the loop re-arms with another ExistW call, so after the one-element
trace the function has not returned at all, and on a longer trace it can
still go on to observe the deletion and return true. -/
theorem watchServiceNode_notWatching_rearms :
    watchServiceNode [NodeStep.recv ZkEventType.notWatching] = none
    ∧ watchServiceNode
        [NodeStep.recv ZkEventType.notWatching, NodeStep.recv ZkEventType.nodeDeleted]
      = some true := ⟨rfl, rfl⟩

/-- C5 (amended). watchServiceNode returns true iff the first step at which
it stops looping is a node-deleted notification; it returns false on the
stop signal and on an ExistW call error; node-data-changed, node-created
AND watch-invalidated (EventNotWatching) notifications all cause re-arming
with no return and no event; and the spawned caller goroutine emits the
Removed event for the instance's service record exactly when
watchServiceNode returns true. -/
theorem watchServiceNode_deleted_iff :
    (∀ t : List NodeStep,
        watchServiceNode t = some true ↔
          t.find? deciding = some (NodeStep.recv ZkEventType.nodeDeleted))
    ∧ (∀ t : List NodeStep, watchServiceNode (NodeStep.stop :: t) = some false)
    ∧ (∀ t : List NodeStep, watchServiceNode (NodeStep.existErr :: t) = some false)
    ∧ (∀ t : List NodeStep,
        watchServiceNode (NodeStep.recv ZkEventType.notWatching :: t) = watchServiceNode t)
    ∧ (∀ t : List NodeStep,
        watchServiceNode (NodeStep.recv ZkEventType.nodeDataChanged :: t) = watchServiceNode t)
    ∧ (∀ t : List NodeStep,
        watchServiceNode (NodeStep.recv ZkEventType.nodeCreated :: t) = watchServiceNode t)
    ∧ (∀ (svc : Service) (t : List NodeStep),
        mkDelEvent svc ∈ nodeWatchTask svc t ↔ watchServiceNode t = some true) := by
  refine ⟨?_, fun _ => rfl, fun _ => rfl, fun _ => rfl, fun _ => rfl, fun _ => rfl, ?_⟩
  · intro t
    induction t with
    | nil => simp [watchServiceNode]
    | cons a rest ih =>
      cases a with
      | existErr => simp [watchServiceNode, List.find?, deciding]
      | stop => simp [watchServiceNode, List.find?, deciding]
      | recv ty => cases ty <;> simp [watchServiceNode, List.find?, deciding, ih]
  · intro svc t
    unfold nodeWatchTask
    split <;> simp_all

/-- C8. Valid (watch.go:388-405) is true iff the watcher is not stopped and
the coordination layer reports a live session (registry done channel open
and zk connection state StateConnected or StateHasSession); it is false
immediately after Close, and stays false under any later environment steps
because a closed done channel never reopens. -/
theorem valid_iff_not_stopped_and_session_ok :
    (∀ w : WatcherLife, Valid w = (!IsClosed w && sessionStateValid w))
    ∧ (∀ w : WatcherLife, Valid (Close w) = false)
    ∧ (∀ w : WatcherLife, IsClosed (Close w) = true)
    ∧ (∀ (w : WatcherLife) (l : List (Bool × ZkConnState)),
        IsClosed (envRun (Close w) l) = true ∧ Valid (envRun (Close w) l) = false) := by
  refine ⟨?_, ?_, close_doneClosed, ?_⟩
  · intro w; rcases w with ⟨d, r, s⟩; cases d <;> cases r <;> cases s <;> rfl
  · intro w; exact valid_false_of_done _ (close_doneClosed w)
  · intro w l
    have hd : (envRun (Close w) l).doneClosed = true := by
      rw [envRun_doneClosed l (Close w)]; exact close_doneClosed w
    exact ⟨hd, valid_false_of_done _ hd⟩

/-- C9 counterexample. After one failed GetChildrenW call resolved by the
reconnect notification, the failure counter is 2, not 0: the
notification branch (watch.go:286-290) re-processes children against nil
and retries at once, but never resets failTimes; and on the following
successful children-changed notification failTimes is 2, so the reset
guard failTimes == 0 does not fire and the diff runs against the fresh
snapshot, not against the empty set. -/
theorem reconnect_does_not_reset_failTimes :
    ((watchDirStep false "/dubbo/com.foo" dirInitState
        (DirStep.fail FailBranch.notify)).1).failTimes = 2
    ∧ ((watchDirStep false "/dubbo/com.foo" dirInitState
        (DirStep.fail FailBranch.notify)).1).failTimes ≠ 0
    ∧ (watchDirRun false "/dubbo/com.foo" dirInitState
        [DirStep.fail FailBranch.notify,
         DirStep.ok ["inst-a"] (DirSel.zk ZkEventType.nodeChildrenChanged "/dubbo/com.foo")]).2
      = [DirCall.handleNode "/dubbo/com.foo" [],
         DirCall.handleNode "/dubbo/com.foo" ["inst-a"]] := by
  refine ⟨by decide, by decide, by decide⟩

/-- C9 (amended). Every failed children-watch call leaves the consecutive
failure counter at the increment capped at MAX_TIMES, so the backoff delay
of failTimes units is bounded by MAX_TIMES units; the reconnect
notification makes the loop immediately re-process children against nil
and retry without waiting out the timer, but it does not reset the failure
counter to zero - the counter is reset only when a later successful
children-changed notification is handled. -/
theorem failTimes_capped_and_reconnect_behavior :
    (∀ (st : DirState) (b : FailBranch) (p : String),
        ((watchDirStep false p st (DirStep.fail b)).1).failTimes
          = min (st.failTimes + 1) MAX_TIMES)
    ∧ (∀ (st : DirState) (b : FailBranch) (p : String) (d : Nat),
        backoffDelay ((watchDirStep false p st (DirStep.fail b)).1).failTimes d
          ≤ MAX_TIMES * d)
    ∧ (∀ (st : DirState) (p : String),
        watchDirStep false p st (DirStep.fail FailBranch.notify)
          = ({ st with failTimes := min (st.failTimes + 1) MAX_TIMES },
             [DirCall.handleNode p []], false)) := by
  refine ⟨?_, ?_, ?_⟩
  · intro st b p; exact failStep_failTimes p st b
  · intro st b p d
    rw [backoffDelay, failStep_failTimes p st b]
    exact Nat.mul_le_mul_right d (Nat.min_le_right _ _)
  · intro st p
    simp [watchDirStep, cap_eq_min]

/-- The empty action list trivially orders sends before spawns. -/
theorem addBeforeSpawn_nil : addBeforeSpawn [] := by
  intro i n svc h
  simp at h

/-- Prepending a send-then-spawn pair for one service preserves the
ordering property. -/
theorem addBeforeSpawn_cons2 (node : String) (svc : Service) (rest : List Action)
    (h : addBeforeSpawn rest) :
    addBeforeSpawn
      (Action.send (mkAddEvent svc) :: Action.spawnNodeWatch node svc :: rest) := by
  intro i n s hi
  match i with
  | 0 => simp at hi
  | 1 =>
    simp only [List.getElem?_cons_succ, List.getElem?_cons_zero, Option.some.injEq,
      Action.spawnNodeWatch.injEq] at hi
    rcases hi with ⟨hn, hs⟩
    exact ⟨0, Nat.zero_lt_one, by simp [hs]⟩
  | i + 2 =>
    simp only [List.getElem?_cons_succ] at hi
    rcases h i n s hi with ⟨j, hj, hjs⟩
    exact ⟨j + 2, by omega, by simpa using hjs⟩

/-- The per-child body of handleZkNodeEvent contributes either nothing or
exactly one Added send immediately followed by one node-watch spawn for the
same service. -/
theorem handleChild_shape (env : NodeEnv) (zkPath : String) (children : List String)
    (n : String) :
    handleChild env zkPath children n = [] ∨
      ∃ svc, handleChild env zkPath children n =
        [Action.send (mkAddEvent svc),
         Action.spawnNodeWatch (pathJoin zkPath n) svc] := by
  unfold handleChild
  split
  · exact Or.inl rfl
  · split
    · exact Or.inl rfl
    · split
      · exact Or.inl rfl
      · split
        · exact Or.inl rfl
        · exact Or.inr ⟨_, rfl⟩

/-- Concatenating per-child blocks preserves the send-before-spawn
ordering. -/
theorem addBeforeSpawn_flatMap (env : NodeEnv) (zkPath : String)
    (children : List String) (xs : List String) :
    addBeforeSpawn (xs.flatMap (handleChild env zkPath children)) := by
  induction xs with
  | nil => simpa using addBeforeSpawn_nil
  | cons x xs ih =>
    rw [List.flatMap_cons]
    rcases handleChild_shape env zkPath children x with h | ⟨svc, h⟩
    · simpa [h] using ih
    · rw [h]
      simpa only [List.cons_append, List.nil_append] using
        addBeforeSpawn_cons2 (pathJoin zkPath x) svc _ ih

/-- C3. In the action trace of handleZkNodeEvent (watch.go:164-218), the
node-watch goroutine for an instance is spawned only after the Added event
for its service record has been sent on the relay (the send at watch.go:206
is a blocking channel operation completed before the go statement at
watch.go:208); and the Removed event for that service is emitted only by
that spawned goroutine, exactly when its watchServiceNode call returns
true. Hence in every execution in which both events for one instance path
are produced, the Added event is queued strictly before the Removed
event. -/
theorem added_precedes_removed :
    (∀ (env : NodeEnv) (zkPath : String) (children : List String),
        addBeforeSpawn (handleZkNodeEvent env zkPath children))
    ∧ (∀ (svc : Service) (t : List NodeStep),
        mkDelEvent svc ∈ nodeWatchTask svc t ↔ watchServiceNode t = some true) := by
  constructor
  · intro env zkPath children
    unfold handleZkNodeEvent
    cases env.childrenRes with
    | none => exact addBeforeSpawn_nil
    | some cs => exact addBeforeSpawn_flatMap env zkPath children cs
  · intro svc t
    unfold nodeWatchTask
    split <;> simp_all

/-- Paths registered in the path set survive any later sequence of watchDir
invocations: nothing removes them. -/
theorem mem_runRegisters_fst (reqs : List String) :
    ∀ (s : List String) (p : String), p ∈ s → p ∈ (runRegisters s reqs).1 := by
  induction reqs with
  | nil => intro s p hp; simpa [runRegisters] using hp
  | cons q reqs ih =>
    intro s p hp
    by_cases hc : contains s q = true
    · simpa [runRegisters, watchDirRegister, hc] using ih s p hp
    · simpa [runRegisters, watchDirRegister, hc] using
        ih (s ++ [q]) p (List.mem_append_left _ hp)

/-- A path already in the path set is never started again. -/
theorem count_runRegisters_spawned_of_mem (reqs : List String) :
    ∀ (s : List String) (p : String), p ∈ s → (runRegisters s reqs).2.count p = 0 := by
  induction reqs with
  | nil => intro s p _; simp [runRegisters]
  | cons q reqs ih =>
    intro s p hp
    by_cases hc : contains s q = true
    · simpa [runRegisters, watchDirRegister, hc] using ih s p hp
    · have hq : q ∉ s := fun hin => hc ((contains_iff_mem s q).2 hin)
      have hne : p ≠ q := fun hpq => hq (hpq ▸ hp)
      simpa [runRegisters, watchDirRegister, hc, List.count_cons, hne] using
        ih (s ++ [q]) p (List.mem_append_left _ hp)

/-- Over any serialized sequence of watchDir invocations, each path starts
at most one watch loop. -/
theorem count_runRegisters_spawned_le_one (reqs : List String) :
    ∀ (s : List String) (p : String), (runRegisters s reqs).2.count p ≤ 1 := by
  induction reqs with
  | nil => intro s p; simp [runRegisters]
  | cons q reqs ih =>
    intro s p
    by_cases hc : contains s q = true
    · simpa [runRegisters, watchDirRegister, hc] using ih s p
    · by_cases hpq : p = q
      · subst hpq
        have h0 : (runRegisters (s ++ [p]) reqs).2.count p = 0 :=
          count_runRegisters_spawned_of_mem reqs (s ++ [p]) p (by simp)
        simp [runRegisters, watchDirRegister, hc, List.count_cons, h0]
      · simpa [runRegisters, watchDirRegister, hc, List.count_cons, hpq] using
          ih (s ++ [q]) p

/-- C6. The registration prologue of watchDir (watch.go:233-242) checks the
path set and registers under one lock acquisition, so the check and the
append are atomic; a second watchDir on an already registered path returns
immediately without entering the loop; path-set membership, once added, is
never removed over any later sequence of invocations (no code in the file
removes from w.pathSet); and consequently each path starts at most one
watch loop. -/
theorem pathSet_at_most_one_loop :
    (∀ (s : List String) (p : String),
        contains s p = true → watchDirRegister s p = (s, false))
    ∧ (∀ (s reqs : List String) (p : String), p ∈ s → p ∈ (runRegisters s reqs).1)
    ∧ (∀ (s reqs : List String) (p : String),
        p ∈ s → (runRegisters s reqs).2.count p = 0)
    ∧ (∀ (s reqs : List String) (p : String), (runRegisters s reqs).2.count p ≤ 1) := by
  refine ⟨?_, ?_, ?_, ?_⟩
  · intro s p h; simp [watchDirRegister, h]
  · intro s reqs p hp; exact mem_runRegisters_fst reqs s p hp
  · intro s reqs p hp; exact count_runRegisters_spawned_of_mem reqs s p hp
  · intro s reqs p; exact count_runRegisters_spawned_le_one reqs s p

/-- The per-child body of watchService never sends an event. -/
theorem watchServiceChild_no_send (env : ServiceEnv) (root c : String) (e : event) :
    SvcAction.send e ∉ watchServiceChild env root c := by
  unfold watchServiceChild
  split
  · simp
  · split
    · simp
    · simp

/-- C7. watchService (watch.go:324-376) sends no event at all on the relay
- in particular no synthetic error event when the root children lookup
fails at startup (the only send, at watch.go:346, is commented out);
on that failure it behaves exactly as on a successful lookup returning no
children, proceeding with an empty initial child set and still spawning the
root directory watch loop. -/
theorem watchService_no_error_event_on_root_failure :
    (∀ (env : ServiceEnv) (root : String) (e : event),
        SvcAction.send e ∉ watchService env root)
    ∧ (∀ (env : ServiceEnv) (root : String),
        env.rootChildrenRes = none →
          watchService env root
            = watchService { env with rootChildrenRes := some [] } root)
    ∧ (∀ (env : ServiceEnv) (root : String),
        env.rootChildrenRes = none → root.length ≠ 0 →
          watchService env root
            = [SvcAction.deleteZkPath root, SvcAction.spawnDir root]) := by
  refine ⟨?_, ?_, ?_⟩
  · intro env root e
    unfold watchService
    split
    · simp
    · intro hmem
      simp only [List.mem_cons, List.mem_append, List.mem_flatMap,
        List.mem_singleton, List.not_mem_nil, or_false] at hmem
      rcases hmem with h | h | h
      · exact SvcAction.noConfusion h
      · rcases h with ⟨c, _, hc⟩
        exact watchServiceChild_no_send env root c e hc
      · exact SvcAction.noConfusion h
  · intro env root h
    simp [watchService, h]
  · intro env root h hroot
    have hlen : (root.length == 0) = false := by
      simpa using hroot
    simp [watchService, h, hlen]

/-- Every event a per-child block of handleZkNodeEvent sends carries a nil
error and a non-nil result. -/
theorem handleChild_send_wellformed (env : NodeEnv) (zkPath : String)
    (children : List String) (n : String) (e : event)
    (hmem : Action.send e ∈ handleChild env zkPath children n) :
    e.err = none ∧ e.res ≠ none := by
  rcases handleChild_shape env zkPath children n with h | ⟨svc, h⟩
  · rw [h] at hmem; simp at hmem
  · rw [h] at hmem
    simp only [List.mem_cons, List.not_mem_nil, or_false] at hmem
    rcases hmem with h1 | h1
    · have he : e = mkAddEvent svc := by
        injection h1
      subst he
      simp [mkAddEvent]
    · exact absurd h1 (by simp)

/-- C10. Every event sent on the relay is built with a nil error and a
non-nil result: the Added sends of handleZkNodeEvent (watch.go:206) and the
Removed sends of the node-watch goroutines (watch.go:213) both use err nil,
and watchService sends nothing. Consequently, for a relay holding only such
events, every Notify return is either the watcher-stopped error with a nil
result or a data event with a nil error - never a data event together with
a non-nil error. -/
theorem events_carry_nil_error :
    (∀ (env : NodeEnv) (zkPath : String) (children : List String) (e : event),
        Action.send e ∈ handleZkNodeEvent env zkPath children →
          e.err = none ∧ e.res ≠ none)
    ∧ (∀ (svc : Service) (t : List NodeStep) (e : event),
        e ∈ nodeWatchTask svc t → e.err = none ∧ e.res ≠ none)
    ∧ (∀ (env : ServiceEnv) (root : String) (e : event),
        SvcAction.send e ∉ watchService env root)
    ∧ (∀ (dc : Bool) (q : List event) (pick : Bool),
        (∀ e ∈ q, e.err = none ∧ e.res ≠ none) →
          notifyReturn (Notify dc q pick) = none
          ∨ notifyReturn (Notify dc q pick) = some (none, some watcherStoppedError)
          ∨ ∃ r : EventResult,
              notifyReturn (Notify dc q pick) = some (some r, none)) := by
  refine ⟨?_, ?_, ?_, ?_⟩
  · intro env zkPath children e hmem
    unfold handleZkNodeEvent at hmem
    rcases henv : env.childrenRes with _ | cs
    · rw [henv] at hmem; simp at hmem
    · rw [henv] at hmem
      rcases List.mem_flatMap.1 hmem with ⟨n, _, hn⟩
      exact handleChild_send_wellformed env zkPath children n e hn
  · intro svc t e hmem
    unfold nodeWatchTask at hmem
    rcases Decidable.em (watchServiceNode t = some true) with h | h
    · rw [if_pos h] at hmem
      simp only [List.mem_singleton] at hmem
      subst hmem
      simp [mkDelEvent]
    · rw [if_neg h] at hmem
      simp at hmem
  · intro env root e
    unfold watchService
    split
    · simp
    · intro hmem
      simp only [List.mem_cons, List.mem_append, List.mem_flatMap,
        List.mem_singleton, List.not_mem_nil, or_false] at hmem
      rcases hmem with h | h | h
      · exact SvcAction.noConfusion h
      · rcases h with ⟨c, _, hc⟩
        exact watchServiceChild_no_send env root c e hc
      · exact SvcAction.noConfusion h
  · intro dc q pick hq
    match dc, q with
    | false, [] => exact Or.inl rfl
    | true, [] => exact Or.inr (Or.inl rfl)
    | false, e :: q =>
      rcases hq e (List.mem_cons_self e q) with ⟨herr, hres⟩
      rcases Option.ne_none_iff_exists'.1 hres with ⟨r, hr⟩
      exact Or.inr (Or.inr ⟨r, by simp [Notify, notifyReturn, herr, hr]⟩)
    | true, e :: q =>
      cases pick with
      | true => exact Or.inr (Or.inl rfl)
      | false =>
        rcases hq e (List.mem_cons_self e q) with ⟨herr, hres⟩
        rcases Option.ne_none_iff_exists'.1 hres with ⟨r, hr⟩
        exact Or.inr (Or.inr ⟨r, by simp [Notify, notifyReturn, herr, hr]⟩)

end Gxzookeeper
